import Mathlib

/-!
# Comment synchronisation and moderation routes (`src/routes/api.js`)

A shallow embedding of the Express routes `POST /comment`, `GET /comments`,
`DELETE /comment/:id` and `PUT /video`.  Every route is a function from the
process environment, the behaviour of the two collaborators (the upstream
video API reached through axios, and the audit store reached through
`Log.create`) and the request, to the response sent together with the ordered
trace of the effects the route performed.
-/

namespace YoutubeDashboard

/-! ## JavaScript values -/

/-- A JavaScript value as far as the routes look at it: the routes only test
values for truthiness, compare them and pass them on.  Arrays and objects are
kept as their serialised text; they are always truthy. -/
inductive JsVal where
  | undefined
  | null
  | bool (b : Bool)
  | num (n : Int)
  | str (s : String)
  | obj (repr : String)
  deriving DecidableEq, Repr

/-- JavaScript truthiness (`!!v`). -/
def JsVal.truthy : JsVal → Bool
  | .undefined => false
  | .null => false
  | .bool b => b
  | .num n => n != 0
  | .str s => s != ""
  | .obj _ => true

/-- The value of `v || null`. -/
def JsVal.orNull (v : JsVal) : JsVal := if v.truthy then v else .null

/-- Truthiness of an environment variable or query field: a string when
present, `undefined` when absent. -/
def truthyStr : Option String → Bool
  | some s => s != ""
  | none => false

/-- An optional string seen as a JavaScript value. -/
def ofOptStr : Option String → JsVal
  | some s => .str s
  | none => .undefined

/-- The characters ECMAScript counts as white space or line terminators; these
are what `String.prototype.trim` strips and what `parseInt` skips. -/
def isJsWhiteSpace (c : Char) : Bool :=
  let n := c.toNat
  n == 0x09 || n == 0x0A || n == 0x0B || n == 0x0C || n == 0x0D || n == 0x20 ||
  n == 0xA0 || n == 0x1680 || (0x2000 ≤ n && n ≤ 0x200A) || n == 0x2028 ||
  n == 0x2029 || n == 0x202F || n == 0x205F || n == 0x3000 || n == 0xFEFF

/-- The model of `String.prototype.trim`, on strings of Unicode scalar values. -/
def jsTrim (s : String) : String :=
  String.mk ((s.toList.dropWhile isJsWhiteSpace).reverse.dropWhile isJsWhiteSpace).reverse

/-- A JavaScript number as far as `parseInt` and `Math.min` produce one here:
`NaN`, an integer that a double holds exactly (magnitude at most `2^53`), or a
double of larger magnitude (possibly infinite) of which only the sign is
tracked.  Negative zero is identified with zero. -/
inductive JsNum where
  | nan
  | int (n : Int)
  | big (negative : Bool)
  deriving DecidableEq, Repr

/-- The number denoted by a run of decimal digits. -/
def digitsValue (ds : List Char) : Nat :=
  ds.foldl (fun acc c => 10 * acc + (c.toNat - 48)) 0

/-- The double nearest to a mathematical integer, as a `JsNum`. -/
def JsNum.ofInt (i : Int) : JsNum :=
  if i.natAbs ≤ 2 ^ 53 then .int i else .big (decide (i < 0))

/-- The optional sign read by `parseInt`: whether it is a minus, and the text
after it. -/
def stripSign : List Char → Bool × List Char
  | '-' :: r => (true, r)
  | '+' :: r => (false, r)
  | r => (false, r)

/-- The model of `parseInt(s, 10)`: skip leading white space, read an optional
sign, then the longest run of decimal digits; `NaN` when that run is empty. -/
def parseInt10 (s : String) : JsNum :=
  let signed := stripSign (s.toList.dropWhile isJsWhiteSpace)
  let ds := signed.2.takeWhile Char.isDigit
  if ds.isEmpty then .nan
  else JsNum.ofInt (if signed.1 then -((digitsValue ds : Nat) : Int) else ((digitsValue ds : Nat) : Int))

/-- The model of `Math.min(x, 100)`. -/
def mathMin100 : JsNum → JsNum
  | .nan => .nan
  | .int n => .int (min n 100)
  | .big true => .big true
  | .big false => .int 100

/-- The page size of line 90:
`Math.min(parseInt(req.query.maxResults || '50', 10), 100)`. -/
def maxResultsOf (q : Option String) : JsNum :=
  mathMin100 (parseInt10 (if truthyStr q then q.getD "" else "50"))

/-! ## Collaborators -/

/-- The process environment read by the routes. -/
structure Env where
  YOUTUBE_ACCESS_TOKEN : Option String
  VIDEO_ID : Option String
  YOUTUBE_API_KEY : Option String
  deriving DecidableEq, Repr

/-- A comment thread as listed by the upstream; the routes never look inside. -/
abbrev Item := String

/-- The parsed body of a successful upstream reply (`resp.data`): `null`, or a
value with its `items` property (present here only when it is an array), its
`nextPageToken` property and the rest of its content. -/
inductive Data where
  | nullish
  | object (items : Option (List Item)) (nextPageToken : JsVal) (rest : String)
  deriving DecidableEq, Repr

/-- The field `err.response` of an axios failure. -/
structure HttpResponse where
  status : Nat
  data : JsVal
  deriving DecidableEq, Repr

/-- An exception caught by a route: `response` is absent for a network failure
and for every exception that is not an upstream reply. -/
structure JsError where
  response : Option HttpResponse
  message : String
  deriving DecidableEq, Repr

/-- The outcome of one upstream call. -/
inductive Reply where
  | ok (data : Data)
  | error (err : JsError)
  deriving DecidableEq, Repr

/-- The outcome of one `Log.create`. -/
inductive Stored where
  | ok
  | error (message : String)
  deriving DecidableEq, Repr

/-- The `Authorization` header built as the template `Bearer ${token}`. -/
def bearer (token : Option String) : String := "Bearer " ++ token.getD "undefined"

/-- The upstream calls the routes issue, with the parameters that vary. -/
inductive UpstreamCall where
  | listThreads (videoId : Option String) (maxResults : JsNum) (key : Option String)
      (pageToken : Option JsVal) (authorization : Option String)
  | createComment (parentId : JsVal) (textOriginal : String) (authorization : String)
  | createThread (videoId : Option String) (textOriginal : String) (authorization : String)
  | deleteComment (id : String) (authorization : String)
  | deleteThread (id : String) (authorization : String)
  | updateVideo (id : Option String) (title description : JsVal) (authorization : String)
  deriving DecidableEq, Repr

/-- The metadata object of an audit entry. -/
inductive AuditMeta where
  | post (text parentId : JsVal)
  | id (id : String)
  | video (title description : JsVal)
  | page (pageToken : Option String) (count : Option Nat)
  | total (total : Nat)
  deriving DecidableEq, Repr

/-- The document handed to `Log.create`. -/
structure AuditEntry where
  action : String
  meta : AuditMeta
  deriving DecidableEq, Repr

/-- One effect performed by a route, with what the collaborator answered. -/
inductive Event where
  | call (c : UpstreamCall) (reply : Reply)
  | log (e : AuditEntry) (result : Stored)
  deriving DecidableEq, Repr

/-- The world a request runs in: the environment, the upstream (the reply to
the `n`-th call of the request, counted from zero) and the audit store. -/
structure World where
  env : Env
  upstream : Nat → UpstreamCall → Reply
  logCreate : AuditEntry → Stored

/-! ## Responses -/

/-- The value of `err.response?.data || { message: err.message }`. -/
inductive ErrPayload where
  | upstream (data : JsVal)
  | message (message : String)
  deriving DecidableEq, Repr

/-- The bodies the routes send. -/
inductive Body where
  | error (error : String)
  | errorData (error : ErrPayload)
  | errorDetails (error : String) (details : ErrPayload)
  | errorFallback (error : JsVal)
  | data (data : Data)
  | aggregated (items : List Item) (nextPageToken : JsVal) (fetchedAll : Bool)
  | statusText
  | text (message : String)
  deriving DecidableEq, Repr

/-- How a run of a route ends: a response was sent, an exception escaped the
route so that it sent nothing, or the pagination loop is still running after
the number of iterations allotted to it. -/
inductive Outcome where
  | sent (status : Nat) (body : Body)
  | crashed
  | running
  deriving DecidableEq, Repr

/-- A run: how it ended and the effects performed, oldest first. -/
structure Run where
  outcome : Outcome
  trace : List Event
  deriving DecidableEq, Repr

/-- Put an effect in front of the effects of the rest of the run. -/
def Run.after (ev : Event) (r : Run) : Run := { r with trace := ev :: r.trace }

/-- The value of `err.response?.status || 500`. -/
def catchStatus (err : JsError) : Nat :=
  match err.response with
  | some r => if r.status != 0 then r.status else 500
  | none => 500

/-- The value of `err.response?.data || { message: err.message }`. -/
def catchData (err : JsError) : ErrPayload :=
  match err.response with
  | some r => if r.data.truthy then .upstream r.data else .message err.message
  | none => .message err.message

/-- The exception raised by a failing `Log.create`: it carries no `response`. -/
def storeError (message : String) : JsError := { response := none, message := message }

/-- The `catch` block shared by `POST /comment` and `GET /comments`. -/
def respondCaught (err : JsError) : Outcome :=
  .sent (catchStatus err) (.errorData (catchData err))

/-- The exception raised by reading a property of a `null` reply body. -/
def nullBodyError : JsError :=
  { response := none, message := "Cannot read properties of null" }

/-- The helper `logAction`: one `Log.create`, recorded as an effect. -/
def logAction (w : World) (action : String) (m : AuditMeta) : Stored × Event :=
  let e : AuditEntry := { action := action, meta := m }
  (w.logCreate e, .log e (w.logCreate e))

/-! ## `POST /comment` -/

/-- The JSON body of `POST /comment`. -/
structure PostBody where
  text : JsVal
  parentId : JsVal
  deriving DecidableEq, Repr

/-- The upstream call of `POST /comment`: a reply when `parentId` is truthy, a
new thread on the configured video otherwise. -/
def postCall (w : World) (text : String) (parentId : JsVal) : UpstreamCall :=
  if parentId.truthy then
    .createComment parentId text (bearer w.env.YOUTUBE_ACCESS_TOKEN)
  else
    .createThread w.env.VIDEO_ID text (bearer w.env.YOUTUBE_ACCESS_TOKEN)

/-- Lines 46-81 of `POST /comment`: the upstream call, then the audit write,
then the response, with the `catch` block for both. -/
def postSend (w : World) (text : String) (parentId : JsVal) : Run :=
  let c := postCall w text parentId
  match w.upstream 0 c with
  | .error err => ⟨respondCaught err, [.call c (.error err)]⟩
  | .ok d =>
    let l := logAction w "POST_COMMENT" (.post (.str text) parentId)
    match l.1 with
    | .error m => ⟨respondCaught (storeError m), [.call c (.ok d), l.2]⟩
    | .ok => ⟨.sent 200 (.data d), [.call c (.ok d), l.2]⟩

/-- The route `POST /comment`.  The test of line 42 is `!text || !text.trim()`:
a truthy `text` that is not a string has no `trim`, and the exception escapes
the route. -/
def postComment (w : World) (body : PostBody) : Run :=
  if !truthyStr w.env.YOUTUBE_ACCESS_TOKEN then
    ⟨.sent 401 (.error "Missing YOUTUBE_ACCESS_TOKEN in env"), []⟩
  else
    match body.text with
    | .str text =>
      if text == "" || jsTrim text == "" then
        ⟨.sent 400 (.error "Comment text required"), []⟩
      else postSend w text body.parentId
    | v =>
      if v.truthy then ⟨.crashed, []⟩
      else ⟨.sent 400 (.error "Comment text required"), []⟩

/-! ## `GET /comments` -/

/-- The query string of `GET /comments`; each field is a string when present. -/
structure CommentsQuery where
  all : Option String
  maxResults : Option String
  pageToken : Option String
  deriving DecidableEq, Repr

/-- The request built by `fetchPage(tokenParam)`: `paramsBase`, the page token
when it is truthy, and the headers. -/
def fetchPageCall (w : World) (q : CommentsQuery) (tokenParam : JsVal) : UpstreamCall :=
  .listThreads w.env.VIDEO_ID (maxResultsOf q.maxResults)
    (if !truthyStr w.env.YOUTUBE_ACCESS_TOKEN && truthyStr w.env.YOUTUBE_API_KEY
      then w.env.YOUTUBE_API_KEY else none)
    (if tokenParam.truthy then some tokenParam else none)
    (if truthyStr w.env.YOUTUBE_ACCESS_TOKEN then some (bearer w.env.YOUTUBE_ACCESS_TOKEN)
      else none)

/-- The constant `SAFETY_LIMIT` of line 120. -/
def SAFETY_LIMIT : Nat := 1000

/-- The contribution of one page to `allItems`: its `items` when that is an
array, nothing otherwise (line 123). -/
def pageItems : Option (List Item) → List Item
  | some xs => xs
  | none => []

/-- Lines 134-135: the audit write of the aggregated listing and the response. -/
def finishAll (w : World) (allItems : List Item) (nextToken : JsVal) : Run :=
  let l := logAction w "FETCH_COMMENTS_ALL" (.total allItems.length)
  match l.1 with
  | .error m => ⟨respondCaught (storeError m), [l.2]⟩
  | .ok => ⟨.sent 200 (.aggregated allItems nextToken.orNull (!nextToken.truthy)), [l.2]⟩

/-- The `while (true)` loop of lines 121-132, run for at most `fuel` page
fetches; `n` counts the upstream calls made so far.  When the fuel is used up
the run is reported as still `running`. -/
def paginate (w : World) (q : CommentsQuery) : Nat → Nat → List Item → JsVal → Run
  | 0, _, _, _ => ⟨.running, []⟩
  | fuel + 1, n, allItems, nextToken =>
    let c := fetchPageCall w q nextToken
    match w.upstream n c with
    | .error err => ⟨respondCaught err, [.call c (.error err)]⟩
    | .ok .nullish => ⟨respondCaught nullBodyError, [.call c (.ok .nullish)]⟩
    | .ok (.object items tok rest) =>
      Run.after (.call c (.ok (.object items tok rest)))
        (if !tok.truthy then finishAll w (allItems ++ pageItems items) tok
         else if (allItems ++ pageItems items).length ≥ SAFETY_LIMIT then
           finishAll w (allItems ++ pageItems items) tok
         else paginate w q fuel (n + 1) (allItems ++ pageItems items) tok)

/-- The single-page branch of lines 111-115.  The `count` of the audit entry is
tracked when `items` is an array. -/
def fetchSingle (w : World) (q : CommentsQuery) : Run :=
  let c := fetchPageCall w q (ofOptStr q.pageToken)
  match w.upstream 0 c with
  | .error err => ⟨respondCaught err, [.call c (.error err)]⟩
  | .ok .nullish => ⟨respondCaught nullBodyError, [.call c (.ok .nullish)]⟩
  | .ok (.object items tok rest) =>
    let l := logAction w "FETCH_COMMENTS_PAGE" (.page q.pageToken (items.map List.length))
    match l.1 with
    | .error m =>
      ⟨respondCaught (storeError m), [.call c (.ok (.object items tok rest)), l.2]⟩
    | .ok => ⟨.sent 200 (.data (.object items tok rest)),
        [.call c (.ok (.object items tok rest)), l.2]⟩

/-- The route `GET /comments`; `fuel` bounds the page fetches of the loop. -/
def getComments (fuel : Nat) (w : World) (q : CommentsQuery) : Run :=
  if !truthyStr w.env.VIDEO_ID then
    ⟨.sent 400 (.error "Missing VIDEO_ID in env"), []⟩
  else if q.all = some "true" then
    paginate w q fuel 0 [] (ofOptStr q.pageToken)
  else
    fetchSingle w q

/-! ## `DELETE /comment/:id` -/

/-- The value of `fallbackErr.response?.status || 500`. -/
def fallbackStatus (err : JsError) : Nat := catchStatus err

/-- The value of `fallbackErr.response?.data || fallbackErr.message`. -/
def fallbackData (err : JsError) : JsVal :=
  match err.response with
  | some r => if r.data.truthy then r.data else .str err.message
  | none => .str err.message

/-- The call `axios.delete` on `/comments` with `config` (line 165). -/
def commentDelete (w : World) (id : String) : UpstreamCall :=
  .deleteComment id (bearer w.env.YOUTUBE_ACCESS_TOKEN)

/-- The call `axios.delete` on `/commentThreads` with the same `config` (line 183). -/
def threadDelete (w : World) (id : String) : UpstreamCall :=
  .deleteThread id (bearer w.env.YOUTUBE_ACCESS_TOKEN)

/-- Lines 181-189: the retry against the thread-delete operation. -/
def deleteFallback (w : World) (id : String) : Run :=
  let c := threadDelete w id
  match w.upstream 1 c with
  | .error fe => ⟨.sent (fallbackStatus fe) (.errorFallback (fallbackData fe)), [.call c (.error fe)]⟩
  | .ok d =>
    let l := logAction w "DELETE_COMMENTTHREAD" (.id id)
    match l.1 with
    | .error m =>
      ⟨.sent (fallbackStatus (storeError m)) (.errorFallback (fallbackData (storeError m))),
        [.call c (.ok d), l.2]⟩
    | .ok => ⟨.sent 200 .statusText, [.call c (.ok d), l.2]⟩

/-- The `catch` block of lines 169-193. -/
def deleteCaught (w : World) (id : String) (err : JsError) : Run :=
  if catchStatus err = 401 then
    ⟨.sent 401 (.errorDetails
      "Unauthorized — token missing/expired/invalid or missing scope" (catchData err)), []⟩
  else if catchStatus err = 403 then
    ⟨.sent 403 (.errorDetails
      "Forbidden — you likely do not have permission to delete this comment (not the comment owner or channel owner)"
      (catchData err)), []⟩
  else if catchStatus err = 400 then
    deleteFallback w id
  else
    ⟨.sent (catchStatus err) (.errorData (catchData err)), []⟩

/-- The route `DELETE /comment/:id`. -/
def deleteComment (w : World) (id : String) : Run :=
  if !truthyStr w.env.YOUTUBE_ACCESS_TOKEN then
    ⟨.sent 401 (.error "Missing YOUTUBE_ACCESS_TOKEN in env"), []⟩
  else if id = "" then
    ⟨.sent 400 (.error "Comment id required"), []⟩
  else
    let c := commentDelete w id
    match w.upstream 0 c with
    | .error err => Run.after (.call c (.error err)) (deleteCaught w id err)
    | .ok d =>
      let l := logAction w "DELETE_COMMENT" (.id id)
      match l.1 with
      | .error m =>
        Run.after (.call c (.ok d)) (Run.after l.2 (deleteCaught w id (storeError m)))
      | .ok => ⟨.sent 200 .statusText, [.call c (.ok d), l.2]⟩

/-! ## `PUT /video` -/

/-- The JSON body of `PUT /video`. -/
structure VideoBody where
  title : JsVal
  description : JsVal
  deriving DecidableEq, Repr

/-- The call `axios.put` of line 202.  Its `Authorization` header is the
module-level `headers` constant of lines 8-10, built from the environment
without a test. -/
def videoUpdate (w : World) (body : VideoBody) : UpstreamCall :=
  .updateVideo w.env.VIDEO_ID body.title body.description (bearer w.env.YOUTUBE_ACCESS_TOKEN)

/-- The route `PUT /video`. -/
def putVideo (w : World) (body : VideoBody) : Run :=
  let c := videoUpdate w body
  match w.upstream 0 c with
  | .error err => ⟨.sent 500 (.text err.message), [.call c (.error err)]⟩
  | .ok d =>
    let l := logAction w "UPDATE_VIDEO_DETAILS" (.video body.title body.description)
    match l.1 with
    | .error m => ⟨.sent 500 (.text m), [.call c (.ok d), l.2]⟩
    | .ok => ⟨.sent 200 (.data d), [.call c (.ok d), l.2]⟩

end YoutubeDashboard

/-! ## Observations on traces -/

namespace YoutubeDashboard

/-- Whether an effect is a thread-delete upstream call. -/
def Event.isThreadDelete : Event → Bool
  | .call (.deleteThread _ _) _ => true
  | _ => false

/-- The audit entries a run handed to `Log.create`, in order. -/
def auditWrites : List Event → List AuditEntry
  | [] => []
  | .log e _ :: rest => e :: auditWrites rest
  | .call _ _ :: rest => auditWrites rest

/-- The audit entries the store accepted during a run, in order. -/
def auditStored : List Event → List AuditEntry
  | [] => []
  | .log e .ok :: rest => e :: auditStored rest
  | _ :: rest => auditStored rest

/-- The upstream calls of a run, in order. -/
def upstreamCalls : List Event → List UpstreamCall
  | [] => []
  | .call c _ :: rest => c :: upstreamCalls rest
  | .log _ _ :: rest => upstreamCalls rest

/-- The `nextPageToken` values of the pages a run received, in order. -/
def observedTokens : List Event → List JsVal
  | [] => []
  | .call _ (.ok (.object _ tok _)) :: rest => tok :: observedTokens rest
  | _ :: rest => observedTokens rest

/-! ## Upstream page sequences -/

/-- One page of the upstream listing. -/
structure Page where
  items : Option (List Item)
  nextPageToken : JsVal
  rest : String
  deriving DecidableEq, Repr

/-- The reply body that carries a page. -/
def Page.data (p : Page) : Data := .object p.items p.nextPageToken p.rest

/-- The upstream serves the pages `ps` one after the other: call number `n`,
made with the token `tok`, is answered with the first page, the next call,
made with the token of that page, with the second, and so on. -/
def serves (w : World) (q : CommentsQuery) : Nat → JsVal → List Page → Bool
  | _, _, [] => true
  | n, tok, p :: ps =>
    decide (w.upstream n (fetchPageCall w q tok) = .ok p.data) &&
      serves w q (n + 1) p.nextPageToken ps

/-- The last page of `ps` is the first one whose token is falsy or after which
the running item count, started at `count`, is at least the safety bound. -/
def stopsAtLast : Nat → List Page → Bool
  | _, [] => false
  | count, [p] =>
    !p.nextPageToken.truthy || decide (SAFETY_LIMIT ≤ count + (pageItems p.items).length)
  | count, p :: p2 :: ps =>
    p.nextPageToken.truthy && decide (count + (pageItems p.items).length < SAFETY_LIMIT) &&
      stopsAtLast (count + (pageItems p.items).length) (p2 :: ps)

/-- The fetches of the pages `ps`, the first made with the token `tok` and each
later one with the token of the page before it. -/
def pageCalls (w : World) (q : CommentsQuery) : JsVal → List Page → List Event
  | _, [] => []
  | tok, p :: ps =>
    .call (fetchPageCall w q tok) (.ok p.data) :: pageCalls w q p.nextPageToken ps

/-- The items of the pages `ps`, concatenated in page order. -/
def allItemsOf : List Page → List Item
  | [] => []
  | p :: ps => pageItems p.items ++ allItemsOf ps

/-- The token of the last page of `ps` (`tok` when there is no page). -/
def lastToken : JsVal → List Page → JsVal
  | tok, [] => tok
  | _, p :: ps => lastToken p.nextPageToken ps

/-! ## Sample worlds -/

/-- A configured environment: credential and video identifier present. -/
def sampleEnv : Env :=
  { YOUTUBE_ACCESS_TOKEN := some "ya29.sample", VIDEO_ID := some "video-1",
    YOUTUBE_API_KEY := none }

/-- A successful upstream reply with an empty body. -/
def emptyReply : Reply := .ok (.object none .undefined "")

/-- An upstream failure with the given status. -/
def failure (status : Nat) : JsError :=
  { response := some { status := status, data := .obj "upstream error payload" },
    message := "Request failed" }

/-- A world whose upstream accepts every call and whose audit store works. -/
def okWorld : World :=
  { env := sampleEnv, upstream := fun _ _ => emptyReply, logCreate := fun _ => .ok }

/-- A world whose upstream answers comment-delete with 400 and accepts every
other call: the identifier names a thread. -/
def threadIdWorld : World :=
  { env := sampleEnv
    upstream := fun _ c =>
      match c with
      | .deleteComment _ _ => .error (failure 400)
      | _ => emptyReply
    logCreate := fun _ => .ok }

/-- A world whose upstream answers every call with 403. -/
def forbiddenWorld : World :=
  { env := sampleEnv, upstream := fun _ _ => .error (failure 403), logCreate := fun _ => .ok }

/-- A query for the aggregated listing with pages of 50. -/
def allQuery : CommentsQuery := { all := some "true", maxResults := some "50", pageToken := none }

/-- A page of `k` threads followed by the token `tok`. -/
def pageOf (k : Nat) (tok : JsVal) : Page :=
  { items := some (List.replicate k "thread"), nextPageToken := tok, rest := "" }

/-- A world whose upstream lists 130 threads in pages of 50, 50 and 30 with
the tokens `T1`, `T2` and none. -/
def threePageWorld : World :=
  { env := sampleEnv
    upstream := fun _ c =>
      match c with
      | .listThreads _ _ _ none _ => .ok (pageOf 50 (.str "T1")).data
      | .listThreads _ _ _ (some (.str "T1")) _ => .ok (pageOf 50 (.str "T2")).data
      | .listThreads _ _ _ (some (.str "T2")) _ => .ok (pageOf 30 .undefined).data
      | _ => .error (failure 404)
    logCreate := fun _ => .ok }

/-- A world whose upstream answers every listing call with a page of `k`
threads and the token `T`: the listing never ends. -/
def endlessWorld (k : Nat) : World :=
  { env := sampleEnv
    upstream := fun _ _ => .ok (pageOf k (.str "T")).data
    logCreate := fun _ => .ok }

/-- A world whose upstream accepts every call and whose audit store rejects
every write. -/
def brokenStoreWorld : World :=
  { env := sampleEnv, upstream := fun _ _ => emptyReply,
    logCreate := fun _ => .error "audit store unavailable" }

/-- A world without a credential whose upstream accepts every call. -/
def noCredentialWorld : World :=
  { env := { YOUTUBE_ACCESS_TOKEN := none, VIDEO_ID := some "video-1", YOUTUBE_API_KEY := none }
    upstream := fun _ _ => emptyReply
    logCreate := fun _ => .ok }

end YoutubeDashboard

/-! # Properties -/

namespace YoutubeDashboard

/-! ## Strings -/

theorem jsTrim_of_all_whiteSpace (s : String)
    (h : ∀ c ∈ s.toList, isJsWhiteSpace c = true) : jsTrim s = "" := by
  have h1 : s.toList.dropWhile isJsWhiteSpace = [] := by
    rw [List.dropWhile_eq_nil_iff]
    exact h
  unfold jsTrim
  rw [h1]
  rfl

/-! ## `POST /comment` -/

/-- C10: a `POST /comment` whose text is absent (`undefined` or `null`), empty,
or made only of white-space characters is rejected without any effect: the
trace holds no upstream call and no audit write, whatever `parentId` is; the
status is 400 when the credential is present (401 when it is not). -/
theorem postComment_blank_text_rejected (w : World) (text parentId : JsVal)
    (hblank : text = .undefined ∨ text = .null ∨
      ∃ s, text = .str s ∧ ∀ c ∈ s.toList, isJsWhiteSpace c = true) :
    (postComment w ⟨text, parentId⟩).trace = [] ∧
    (truthyStr w.env.YOUTUBE_ACCESS_TOKEN = true →
      (postComment w ⟨text, parentId⟩).outcome = .sent 400 (.error "Comment text required")) ∧
    (truthyStr w.env.YOUTUBE_ACCESS_TOKEN = false →
      (postComment w ⟨text, parentId⟩).outcome =
        .sent 401 (.error "Missing YOUTUBE_ACCESS_TOKEN in env")) := by
  rcases hblank with h | h | ⟨s, h, hs⟩
  · subst h
    cases ht : truthyStr w.env.YOUTUBE_ACCESS_TOKEN <;> simp [postComment, ht, JsVal.truthy]
  · subst h
    cases ht : truthyStr w.env.YOUTUBE_ACCESS_TOKEN <;> simp [postComment, ht, JsVal.truthy]
  · subst h
    have htrim := jsTrim_of_all_whiteSpace s hs
    cases ht : truthyStr w.env.YOUTUBE_ACCESS_TOKEN <;> simp [postComment, ht, htrim]

/-- Witness for C10: white-space text with a parent identifier, credential present. -/
theorem postComment_blank_text_rejected_witness :
    (postComment okWorld ⟨.str " \t\n", .str "Ugx1"⟩).trace = [] ∧
    (postComment okWorld ⟨.str " \t\n", .str "Ugx1"⟩).outcome =
      .sent 400 (.error "Comment text required") :=
  have h := postComment_blank_text_rejected okWorld (.str " \t\n") (.str "Ugx1")
    (Or.inr (Or.inr ⟨" \t\n", rfl, by decide⟩))
  ⟨h.1, h.2.1 (by decide)⟩

/-! ## `DELETE /comment/:id` -/

theorem catchStatus_eq_400_iff (err : JsError) :
    catchStatus err = 400 ↔ ∃ r, err.response = some r ∧ r.status = 400 := by
  unfold catchStatus
  cases hr : err.response with
  | none => simp
  | some r =>
    by_cases h0 : r.status = 0
    · simp [h0]
    · simp [h0]

/-- C5: when the comment-delete attempt fails and the failure is not a bad
request (an upstream reply with a status other than 400, or no upstream reply
at all), the run consists of that single upstream call (no thread-delete, no
audit write) and the response carries the upstream status, 500 when there was
no upstream reply.  Upstream statuses are HTTP statuses, hence not zero. -/
theorem deleteComment_other_failure_surfaced (w : World) (id : String) (err : JsError)
    (htok : truthyStr w.env.YOUTUBE_ACCESS_TOKEN = true) (hid : id ≠ "")
    (hfail : w.upstream 0 (commentDelete w id) = .error err)
    (hclass : ∀ r, err.response = some r → r.status ≠ 400 ∧ r.status ≠ 0) :
    (deleteComment w id).trace = [.call (commentDelete w id) (.error err)] ∧
    ∃ body, (deleteComment w id).outcome =
      .sent (match err.response with
        | some r => r.status
        | none => 500) body := by
  have hst : catchStatus err = (match err.response with
      | some r => r.status
      | none => 500) := by
    unfold catchStatus
    cases hr : err.response with
    | none => rfl
    | some r => simp [(hclass r hr).2]
  have h400 : catchStatus err ≠ 400 := by
    rw [hst]
    cases hr : err.response with
    | none => simp
    | some r => simpa using (hclass r hr).1
  simp only [deleteComment, htok, hid, hfail, Bool.not_true, Bool.false_eq_true, if_false,
    Run.after, deleteCaught]
  rw [← hst]
  by_cases h1 : catchStatus err = 401
  · simp [h1]
  · by_cases h3 : catchStatus err = 403
    · simp [h3]
    · simp [h1, h3, h400]

/-- Witness for C5: the upstream answers the comment-delete with 403. -/
theorem deleteComment_other_failure_surfaced_witness :
    (deleteComment forbiddenWorld "abc123").trace =
      [.call (.deleteComment "abc123" "Bearer ya29.sample") (.error (failure 403))] ∧
    ∃ body, (deleteComment forbiddenWorld "abc123").outcome = .sent 403 body :=
  deleteComment_other_failure_surfaced forbiddenWorld "abc123" (failure 403)
    (by decide) (by decide) rfl (by
      intro r hr
      have : r = ⟨403, .obj "upstream error payload"⟩ := by
        simpa [failure] using hr.symm
      subst this
      decide)

theorem threadDelete_isThreadDelete (w : World) (id : String) (r : Reply) :
    (Event.call (threadDelete w id) r).isThreadDelete = true := rfl

theorem commentDelete_isThreadDelete (w : World) (id : String) (r : Reply) :
    (Event.call (commentDelete w id) r).isThreadDelete = false := rfl

theorem log_isThreadDelete (e : AuditEntry) (r : Stored) :
    (Event.log e r).isThreadDelete = false := rfl

/-- C4: `DELETE /comment/:id` with a credential (and the non-empty identifier
the path supplies).  The thread-delete call is issued if and only if the
comment-delete attempt failed with status 400.  When it is issued it is the
second effect of the run, right after the comment attempt, it carries the same
identifier and it is the only thread-delete of the run.  When it succeeds and
the audit store accepts the entry, the response is 200 and the run ends with
the single audit write `DELETE_COMMENTTHREAD` with metadata `id`.  When it
fails, the run ends there (no further call, no audit write) and the response
carries the status and the payload of that failure. -/
theorem deleteComment_thread_fallback (w : World) (id : String)
    (htok : truthyStr w.env.YOUTUBE_ACCESS_TOKEN = true) (hid : id ≠ "") :
    ((∃ ev ∈ (deleteComment w id).trace, ev.isThreadDelete = true) ↔
      ∃ err resp, w.upstream 0 (commentDelete w id) = .error err ∧
        err.response = some resp ∧ resp.status = 400) ∧
    (∀ err resp, w.upstream 0 (commentDelete w id) = .error err →
      err.response = some resp → resp.status = 400 →
      (deleteComment w id).trace.take 2 =
        [.call (commentDelete w id) (.error err),
         .call (threadDelete w id) (w.upstream 1 (threadDelete w id))] ∧
      (deleteComment w id).trace.filter Event.isThreadDelete =
        [.call (threadDelete w id) (w.upstream 1 (threadDelete w id))] ∧
      (∀ d, w.upstream 1 (threadDelete w id) = .ok d →
        w.logCreate ⟨"DELETE_COMMENTTHREAD", .id id⟩ = .ok →
        (deleteComment w id).outcome = .sent 200 .statusText ∧
        (deleteComment w id).trace =
          [.call (commentDelete w id) (.error err), .call (threadDelete w id) (.ok d),
           .log ⟨"DELETE_COMMENTTHREAD", .id id⟩ .ok]) ∧
      (∀ fe, w.upstream 1 (threadDelete w id) = .error fe →
        (deleteComment w id).outcome =
          .sent (fallbackStatus fe) (.errorFallback (fallbackData fe)) ∧
        (deleteComment w id).trace =
          [.call (commentDelete w id) (.error err), .call (threadDelete w id) (.error fe)] ∧
        (∀ fresp, fe.response = some fresp → fresp.status ≠ 0 → fresp.data.truthy = true →
          (deleteComment w id).outcome = .sent fresp.status (.errorFallback fresp.data)))) := by
  refine ⟨?_, ?_⟩
  · constructor
    · rintro ⟨ev, hmem, hev⟩
      cases h0 : w.upstream 0 (commentDelete w id) with
      | ok d =>
        exfalso
        cases hl : w.logCreate ⟨"DELETE_COMMENT", .id id⟩ <;>
          simp [deleteComment, htok, hid, h0, logAction, hl, Run.after, deleteCaught,
            catchStatus, storeError] at hmem <;>
          rcases hmem with h | h <;> subst h <;> simp [Event.isThreadDelete, commentDelete] at hev
      | error err =>
        by_cases h400 : catchStatus err = 400
        · obtain ⟨resp, hr, hs⟩ := (catchStatus_eq_400_iff err).1 h400
          exact ⟨err, resp, rfl, hr, hs⟩
        · exfalso
          by_cases h1 : catchStatus err = 401 <;> by_cases h3 : catchStatus err = 403 <;>
            simp [deleteComment, htok, hid, h0, Run.after, deleteCaught, h1, h3, h400] at hmem <;>
            subst hmem <;> simp [Event.isThreadDelete, commentDelete] at hev
    · rintro ⟨err, resp, h0, hr, hs⟩
      have h400 : catchStatus err = 400 := (catchStatus_eq_400_iff err).2 ⟨resp, hr, hs⟩
      refine ⟨.call (threadDelete w id) (w.upstream 1 (threadDelete w id)), ?_, rfl⟩
      cases h1 : w.upstream 1 (threadDelete w id) <;>
        simp [deleteComment, htok, hid, h0, Run.after, deleteCaught, h400, deleteFallback, h1,
          logAction]
      cases hl : w.logCreate ⟨"DELETE_COMMENTTHREAD", .id id⟩ <;> simp
  · intro err resp h0 hr hs
    have h400 : catchStatus err = 400 := (catchStatus_eq_400_iff err).2 ⟨resp, hr, hs⟩
    refine ⟨?_, ?_, ?_, ?_⟩
    · cases h1 : w.upstream 1 (threadDelete w id) <;>
        simp [deleteComment, htok, hid, h0, Run.after, deleteCaught, h400, deleteFallback, h1,
          logAction]
      cases hl : w.logCreate ⟨"DELETE_COMMENTTHREAD", .id id⟩ <;> simp
    · cases h1 : w.upstream 1 (threadDelete w id) <;>
        simp [deleteComment, htok, hid, h0, Run.after, deleteCaught, h400, deleteFallback, h1,
          logAction, List.filter, commentDelete_isThreadDelete, threadDelete_isThreadDelete]
      cases hl : w.logCreate ⟨"DELETE_COMMENTTHREAD", .id id⟩ <;>
        simp [List.filter, log_isThreadDelete, threadDelete_isThreadDelete]
    · intro d h1 hl
      simp [deleteComment, htok, hid, h0, Run.after, deleteCaught, h400, deleteFallback, h1,
        logAction, hl]
    · intro fe h1
      have hout : (deleteComment w id).outcome =
          .sent (fallbackStatus fe) (.errorFallback (fallbackData fe)) := by
        simp [deleteComment, htok, hid, h0, Run.after, deleteCaught, h400, deleteFallback, h1]
      refine ⟨hout, ?_, ?_⟩
      · simp [deleteComment, htok, hid, h0, Run.after, deleteCaught, h400, deleteFallback, h1]
      · intro fresp hfr hfs hfd
        rw [hout]
        simp [fallbackStatus, catchStatus, fallbackData, hfr, hfs, hfd]

/-- Witness for C4: identifier `abc123`, comment-delete answered 400, then the
thread-delete accepted. -/
theorem deleteComment_thread_fallback_witness :
    truthyStr threadIdWorld.env.YOUTUBE_ACCESS_TOKEN = true ∧ "abc123" ≠ "" ∧
    (deleteComment threadIdWorld "abc123").outcome = .sent 200 .statusText ∧
    (deleteComment threadIdWorld "abc123").trace =
      [.call (.deleteComment "abc123" "Bearer ya29.sample") (.error (failure 400)),
       .call (.deleteThread "abc123" "Bearer ya29.sample") emptyReply,
       .log ⟨"DELETE_COMMENTTHREAD", .id "abc123"⟩ .ok] :=
  ⟨by decide, by decide,
    ((deleteComment_thread_fallback threadIdWorld "abc123" (by decide) (by decide)).2
      (failure 400) ⟨400, .obj "upstream error payload"⟩ rfl rfl rfl).2.2.1
      (.object none .undefined "") rfl rfl⟩

/-! ## Page size -/

theorem digitChar_spec (d : Nat) (h : d < 10) :
    (Nat.digitChar d).toNat - 48 = d ∧ (Nat.digitChar d).isDigit = true ∧
    isJsWhiteSpace (Nat.digitChar d) = false ∧ Nat.digitChar d ≠ '-' ∧
    Nat.digitChar d ≠ '+' := by
  interval_cases d <;> decide

/-- The digits of a rendered numeral denote the number rendered. -/
theorem foldl_toDigitsCore (fuel : Nat) : ∀ (n : Nat) (ds : List Char), n < fuel →
    (Nat.toDigitsCore 10 fuel n ds).foldl (fun acc c => 10 * acc + (c.toNat - 48)) 0 =
      ds.foldl (fun acc c => 10 * acc + (c.toNat - 48)) n := by
  induction fuel with
  | zero => intro n ds h; omega
  | succ fuel ih =>
    intro n ds h
    have hd := (digitChar_spec (n % 10) (Nat.mod_lt _ (by decide))).1
    simp only [Nat.toDigitsCore]
    by_cases h0 : n / 10 = 0
    · simp only [h0, if_true, List.foldl_cons, hd]
      congr 1
      omega
    · simp only [h0, if_false]
      rw [ih (n / 10) _ (by omega), List.foldl_cons, hd]
      congr 1
      omega

theorem toDigitsCore_digits (fuel : Nat) : ∀ (n : Nat) (ds : List Char),
    (∀ c ∈ ds, Char.isDigit c = true) →
    ∀ c ∈ Nat.toDigitsCore 10 fuel n ds, Char.isDigit c = true := by
  induction fuel with
  | zero => intro n ds h; simpa [Nat.toDigitsCore] using h
  | succ fuel ih =>
    intro n ds h
    have hd := (digitChar_spec (n % 10) (Nat.mod_lt _ (by decide))).2.1
    have hcons : ∀ c ∈ Nat.digitChar (n % 10) :: ds, Char.isDigit c = true := by
      intro c hc
      rcases List.mem_cons.1 hc with hc | hc
      · rw [hc]; exact hd
      · exact h c hc
    simp only [Nat.toDigitsCore]
    by_cases h0 : n / 10 = 0
    · simpa only [h0, if_true] using hcons
    · simpa only [h0, if_false] using ih (n / 10) _ hcons

theorem toDigitsCore_ne_nil (fuel : Nat) : ∀ (n : Nat) (ds : List Char),
    (0 < fuel ∨ ds ≠ []) → Nat.toDigitsCore 10 fuel n ds ≠ [] := by
  induction fuel with
  | zero => intro n ds h; simpa [Nat.toDigitsCore] using h
  | succ fuel ih =>
    intro n ds _
    simp only [Nat.toDigitsCore]
    by_cases h0 : n / 10 = 0
    · simp [h0]
    · simpa only [h0, if_false] using ih (n / 10) _ (Or.inr (by simp))

theorem repr_toList (n : Nat) : (Nat.repr n).toList = Nat.toDigits 10 n := by
  simp [Nat.repr, List.asString]

theorem repr_digits (n : Nat) : ∀ c ∈ (Nat.repr n).toList, Char.isDigit c = true := by
  rw [repr_toList]
  exact toDigitsCore_digits _ _ _ (by simp)

theorem repr_ne_nil (n : Nat) : (Nat.repr n).toList ≠ [] := by
  rw [repr_toList]
  exact toDigitsCore_ne_nil _ _ _ (Or.inl (Nat.succ_pos n))

theorem repr_value (n : Nat) : digitsValue (Nat.repr n).toList = n := by
  rw [repr_toList]
  unfold digitsValue Nat.toDigits
  rw [foldl_toDigitsCore _ _ _ (Nat.lt_succ_self n)]
  rfl

theorem isDigit_not_special (c : Char) (h : Char.isDigit c = true) :
    isJsWhiteSpace c = false ∧ c ≠ '-' ∧ c ≠ '+' := by
  have h1 : 48 ≤ c.toNat ∧ c.toNat ≤ 57 := by
    simp only [Char.isDigit, Bool.and_eq_true, decide_eq_true_eq] at h
    exact ⟨h.1, h.2⟩
  refine ⟨?_, ?_, ?_⟩
  · simp only [isJsWhiteSpace]
    have : c.toNat ≠ 9 := by omega
    simp
    omega
  · rintro rfl
    revert h1
    decide
  · rintro rfl
    revert h1
    decide

theorem stripSign_of_not_sign (c : Char) (r : List Char) (h1 : c ≠ '-') (h2 : c ≠ '+') :
    stripSign (c :: r) = (false, c :: r) := by
  unfold stripSign
  split
  · simp_all
  · simp_all
  · rfl

/-- A non-empty run of decimal digits is read by `parseInt` as the number it
denotes. -/
theorem parseInt10_digits (s : String) (hne : s.toList ≠ [])
    (hall : ∀ c ∈ s.toList, Char.isDigit c = true) :
    parseInt10 s = JsNum.ofInt (digitsValue s.toList) := by
  obtain ⟨c, r, hcr⟩ := List.exists_cons_of_ne_nil hne
  have hc : Char.isDigit c = true := hall c (by rw [hcr]; simp)
  obtain ⟨hw, hm, hp⟩ := isDigit_not_special c hc
  have htake : (c :: r).takeWhile Char.isDigit = c :: r := by
    rw [List.takeWhile_eq_self_iff]
    rw [hcr] at hall
    exact hall
  unfold parseInt10
  simp only [hcr, List.dropWhile_cons, hw, Bool.false_eq_true, if_false,
    stripSign_of_not_sign c r hm hp, htake]
  simp

/-- A minus sign followed by a non-empty run of decimal digits is read by
`parseInt` as the negated number. -/
theorem parseInt10_neg_digits (s : String) (hne : s.toList ≠ [])
    (hall : ∀ c ∈ s.toList, Char.isDigit c = true) :
    parseInt10 ("-" ++ s) = JsNum.ofInt (-(digitsValue s.toList : Int)) := by
  have htake : s.toList.takeWhile Char.isDigit = s.toList := by
    rw [List.takeWhile_eq_self_iff]
    exact hall
  have hl : ("-" ++ s).toList = '-' :: s.toList := by simp
  have hw : isJsWhiteSpace '-' = false := by decide
  unfold parseInt10
  simp only [hl, List.dropWhile_cons, hw, Bool.false_eq_true, if_false, stripSign, htake]
  simp only [List.isEmpty_eq_true, if_true]
  rw [if_neg hne]

theorem maxResultsOf_some (s : String) (h : s ≠ "") :
    maxResultsOf (some s) = mathMin100 (parseInt10 s) := by
  simp [maxResultsOf, truthyStr, h]

theorem repr_ne_empty (n : Nat) : Nat.repr n ≠ "" := by
  intro h
  apply repr_ne_nil n
  rw [h]
  rfl

theorem ofInt_natCast (n : Nat) (h : n ≤ 2 ^ 53) : JsNum.ofInt (n : Int) = .int n := by
  unfold JsNum.ofInt
  rw [if_pos]
  simpa using h

theorem ofInt_natCast_big (n : Nat) (h : ¬ n ≤ 2 ^ 53) :
    JsNum.ofInt (n : Int) = .big false := by
  unfold JsNum.ofInt
  rw [if_neg]
  · simp
  · simpa using h

theorem ofInt_neg_natCast (n : Nat) (h : n ≤ 2 ^ 53) :
    JsNum.ofInt (-(n : Int)) = .int (-(n : Int)) := by
  unfold JsNum.ofInt
  rw [if_pos]
  simpa using h

theorem mathMin100_int (n : Int) : mathMin100 (.int n) = .int (min n 100) := rfl

theorem mathMin100_le (x : JsNum) :
    (∀ n, mathMin100 x = .int n → n ≤ 100) ∧ mathMin100 x ≠ .big false := by
  cases x with
  | nan => simp [mathMin100]
  | int m => simp [mathMin100]
  | big b => cases b <;> simp [mathMin100]

theorem parseInt10_no_number (c : Char) (rest : List Char)
    (hw : isJsWhiteSpace c = false) (hm : c ≠ '-') (hp : c ≠ '+')
    (hd : Char.isDigit c = false) : parseInt10 (String.mk (c :: rest)) = .nan := by
  unfold parseInt10
  simp [hw, stripSign_of_not_sign c rest hm hp, hd]

theorem finishAll_calls (w : World) (items : List Item) (tok : JsVal) :
    upstreamCalls (finishAll w items tok).trace = [] := by
  simp only [finishAll, logAction]
  split <;> rfl

/-- Every upstream call of the pagination loop is a `fetchPage` request. -/
theorem paginate_calls (w : World) (q : CommentsQuery) (fuel : Nat) :
    ∀ (n : Nat) (items : List Item) (tok : JsVal),
    ∀ c ∈ upstreamCalls (paginate w q fuel n items tok).trace,
      ∃ t, c = fetchPageCall w q t := by
  induction fuel with
  | zero => intro n items tok c hc; simp [paginate, upstreamCalls] at hc
  | succ fuel ih =>
    intro n items tok c hc
    unfold paginate at hc
    cases hu : w.upstream n (fetchPageCall w q tok) with
    | error err =>
      simp only [hu, upstreamCalls, List.mem_singleton] at hc
      exact ⟨tok, hc⟩
    | ok d =>
      cases d with
      | nullish =>
        simp only [hu, upstreamCalls, List.mem_singleton] at hc
        exact ⟨tok, hc⟩
      | object its t rest =>
        simp only [hu, Run.after, upstreamCalls, List.mem_cons] at hc
        rcases hc with hc | hc
        · exact ⟨tok, hc⟩
        · split at hc
          · simp [finishAll_calls] at hc
          · split at hc
            · simp [finishAll_calls] at hc
            · exact ih _ _ _ c hc

theorem fetchSingle_calls (w : World) (q : CommentsQuery) :
    ∀ c ∈ upstreamCalls (fetchSingle w q).trace, ∃ t, c = fetchPageCall w q t := by
  intro c hc
  unfold fetchSingle at hc
  cases hu : w.upstream 0 (fetchPageCall w q (ofOptStr q.pageToken)) with
  | error err =>
    simp only [hu, upstreamCalls, List.mem_singleton] at hc
    exact ⟨_, hc⟩
  | ok d =>
    cases d with
    | nullish =>
      simp only [hu, upstreamCalls, List.mem_singleton] at hc
      exact ⟨_, hc⟩
    | object its t rest =>
      simp only [hu, logAction] at hc
      cases hl : w.logCreate ⟨"FETCH_COMMENTS_PAGE", .page q.pageToken (its.map List.length)⟩ <;>
        simp only [hl, upstreamCalls, List.mem_singleton] at hc <;> exact ⟨_, hc⟩

theorem getComments_calls (fuel : Nat) (w : World) (q : CommentsQuery) :
    ∀ c ∈ upstreamCalls (getComments fuel w q).trace, ∃ t, c = fetchPageCall w q t := by
  intro c hc
  unfold getComments at hc
  split at hc
  · simp [upstreamCalls] at hc
  · split at hc
    · exact paginate_calls w q fuel _ _ _ c hc
    · exact fetchSingle_calls w q c hc

/-- C6 as stated fails: for the query value `abc` the single upstream call of
`GET /comments` carries `maxResults = NaN`, which is not a number at most 100. -/
theorem maxResults_text_counterexample :
    upstreamCalls (getComments 1 okWorld ⟨none, some "abc", none⟩).trace =
      [.listThreads (some "video-1") .nan none none (some "Bearer ya29.sample")] ∧
    ¬ ∃ n : Int, maxResultsOf (some "abc") = .int n ∧ n ≤ 100 := by
  constructor
  · decide
  · rintro ⟨n, h, -⟩
    have hnan : maxResultsOf (some "abc") = .nan := by decide
    rw [hnan] at h
    cases h

/-- C6, amended: every upstream comment-list call of `GET /comments` carries
`maxResults = Math.min(parseInt(query value or 50), 100)`, which is never
greater than 100.  It is 50 when the parameter is absent or empty; the
requested value when the parameter is the decimal numeral of a natural number
at most 100, or of a negative integer that a double holds exactly; 100 when it
is the numeral of a larger number; and `NaN`, not a number, when the text does
not start with white space, a sign or a digit. -/
theorem maxResults_clamped (fuel : Nat) (w : World) (q : CommentsQuery) :
    (∀ c ∈ upstreamCalls (getComments fuel w q).trace,
      ∃ v k t a, c = .listThreads v (maxResultsOf q.maxResults) k t a) ∧
    (∀ n : Int, maxResultsOf q.maxResults = .int n → n ≤ 100) ∧
    maxResultsOf q.maxResults ≠ .big false ∧
    maxResultsOf none = .int 50 ∧ maxResultsOf (some "") = .int 50 ∧
    (∀ n : Nat, n ≤ 100 → maxResultsOf (some (Nat.repr n)) = .int n) ∧
    (∀ n : Nat, 100 < n → maxResultsOf (some (Nat.repr n)) = .int 100) ∧
    (∀ n : Nat, n ≤ 2 ^ 53 → maxResultsOf (some ("-" ++ Nat.repr n)) = .int (-(n : Int))) ∧
    (∀ (c : Char) (rest : List Char), isJsWhiteSpace c = false → c ≠ '-' → c ≠ '+' →
      Char.isDigit c = false → maxResultsOf (some (String.mk (c :: rest))) = .nan) := by
  refine ⟨?_, (mathMin100_le _).1, (mathMin100_le _).2, by decide, by decide, ?_, ?_, ?_, ?_⟩
  · intro c hc
    obtain ⟨t, rfl⟩ := getComments_calls fuel w q c hc
    exact ⟨_, _, _, _, rfl⟩
  · intro n hn
    rw [maxResultsOf_some _ (repr_ne_empty n), parseInt10_digits _ (repr_ne_nil n) (repr_digits n),
      repr_value]
    have h53 : n ≤ 2 ^ 53 := le_trans hn (by norm_num)
    rw [ofInt_natCast n h53, mathMin100_int, min_eq_left (by exact_mod_cast hn)]
  · intro n hn
    rw [maxResultsOf_some _ (repr_ne_empty n), parseInt10_digits _ (repr_ne_nil n) (repr_digits n),
      repr_value]
    by_cases h53 : n ≤ 2 ^ 53
    · rw [ofInt_natCast n h53, mathMin100_int, min_eq_right (by exact_mod_cast hn.le)]
    · rw [ofInt_natCast_big n h53]
      rfl
  · intro n hn
    have hne : "-" ++ Nat.repr n ≠ "" := by
      intro h
      have := congrArg String.length h
      simp only [String.length_append] at this
      have h1 : "-".length = 1 := by decide
      have h0 : "".length = 0 := by decide
      omega
    rw [maxResultsOf_some _ hne, parseInt10_neg_digits _ (repr_ne_nil n) (repr_digits n),
      repr_value, ofInt_neg_natCast n hn, mathMin100_int, min_eq_left (by omega)]
  · intro c rest hw hm hp hd
    have hne : String.mk (c :: rest) ≠ "" := by
      intro h
      have := congrArg String.length h
      simp at this
    rw [maxResultsOf_some _ hne, parseInt10_no_number c rest hw hm hp hd]
    rfl

/-- Witness for C6: the numerals 250 and 25 and the text `abc`. -/
theorem maxResults_clamped_witness :
    maxResultsOf (some (Nat.repr 250)) = .int 100 ∧
    maxResultsOf (some (Nat.repr 25)) = .int 25 ∧
    maxResultsOf (some (String.mk ['a', 'b', 'c'])) = .nan :=
  have h := maxResults_clamped 1 okWorld ⟨none, some "250", none⟩
  ⟨h.2.2.2.2.2.2.1 250 (by decide), h.2.2.2.2.2.1 25 (by decide),
    h.2.2.2.2.2.2.2.2 'a' ['b', 'c'] (by decide) (by decide) (by decide) (by decide)⟩

/-! ## Aggregated listing -/

/-- The run of the loop on a page sequence that ends at its first stopping
page: the pages are fetched in order and the loop finishes with all their
items and the token of the last page. -/
theorem paginate_run (w : World) (q : CommentsQuery) :
    ∀ (ps : List Page) (fuel n : Nat) (acc : List Item) (tok : JsVal),
    serves w q n tok ps = true → stopsAtLast acc.length ps = true → ps.length ≤ fuel →
    paginate w q fuel n acc tok =
      { outcome := (finishAll w (acc ++ allItemsOf ps) (lastToken tok ps)).outcome
        trace := pageCalls w q tok ps ++
          (finishAll w (acc ++ allItemsOf ps) (lastToken tok ps)).trace } := by
  intro ps
  induction ps with
  | nil => intro fuel n acc tok _ hstop; simp [stopsAtLast] at hstop
  | cons p ps ih =>
    intro fuel n acc tok hserve hstop hfuel
    cases fuel with
    | zero => simp at hfuel
    | succ fuel =>
      simp only [serves, Bool.and_eq_true, decide_eq_true_eq] at hserve
      obtain ⟨hup, hrest⟩ := hserve
      have hup2 : w.upstream n (fetchPageCall w q tok) =
          .ok (.object p.items p.nextPageToken p.rest) := hup
      cases ps with
      | nil =>
        simp only [stopsAtLast, Bool.or_eq_true, Bool.not_eq_true', decide_eq_true_eq] at hstop
        simp only [paginate, hup2, Run.after, allItemsOf, List.append_nil, lastToken, pageCalls,
          Page.data, List.singleton_append, List.length_append]
        rcases hstop with hstop | hstop
        · simp [hstop]
        · by_cases ht : p.nextPageToken.truthy = true
          · simp [ht, hstop]
          · simp [ht]
      | cons p2 ps =>
        simp only [stopsAtLast, Bool.and_eq_true, decide_eq_true_eq] at hstop
        obtain ⟨⟨ht, hlt⟩, hstop2⟩ := hstop
        have hlen : (acc ++ pageItems p.items).length = acc.length + (pageItems p.items).length :=
          List.length_append _ _
        have hnot : ¬ (acc ++ pageItems p.items).length ≥ SAFETY_LIMIT := by
          rw [hlen]
          omega
        have hfuel2 : (p2 :: ps).length ≤ fuel := by
          simp only [List.length_cons] at hfuel ⊢
          omega
        rw [← hlen] at hstop2
        have hrec := ih fuel (n + 1) (acc ++ pageItems p.items) p.nextPageToken hrest hstop2 hfuel2
        simp only [paginate, hup2, Run.after, ht, Bool.not_true, Bool.false_eq_true, if_false,
          hnot, hrec]
        simp [allItemsOf, lastToken, pageCalls, Page.data, List.append_assoc]

theorem lastToken_getLast (ps : List Page) : ∀ tok : JsVal, ps ≠ [] →
    ps.getLast?.map Page.nextPageToken = some (lastToken tok ps) := by
  induction ps with
  | nil => intro tok h; exact absurd rfl h
  | cons p ps ih =>
    intro tok _
    cases ps with
    | nil => rfl
    | cons p2 ps =>
      rw [List.getLast?_cons_cons]
      exact ih p.nextPageToken (by simp)

theorem stopsAtLast_ne_nil (count : Nat) (ps : List Page) (h : stopsAtLast count ps = true) :
    ps ≠ [] := by
  rintro rfl
  simp [stopsAtLast] at h

/-- C1: `GET /comments` with `all=true` and the video configured, against an
upstream that serves the pages `ps`, the last of which is the first whose token
is falsy or after which the running item count is at least 1000.  As soon as
the loop is given as many iterations as there are pages, and the audit store
accepts the entry of the listing, the route fetches exactly these pages in
order (the first with the caller's page token, each later one with the token
of the page before it), then writes the audit entry, and responds 200 with the
items of the pages concatenated in page order, the last page's token (`null`
when it is falsy) and `fetchedAll` true exactly when that token is falsy;
`lastToken` is the token of the last page of `ps`. -/
theorem getComments_all_aggregates (w : World) (q : CommentsQuery) (ps : List Page)
    (fuel : Nat) (hvid : truthyStr w.env.VIDEO_ID = true) (hall : q.all = some "true")
    (hserve : serves w q 0 (ofOptStr q.pageToken) ps = true)
    (hstop : stopsAtLast 0 ps = true) (hfuel : ps.length ≤ fuel)
    (hlog : w.logCreate ⟨"FETCH_COMMENTS_ALL", .total (allItemsOf ps).length⟩ = .ok) :
    (getComments fuel w q).outcome =
      .sent 200 (.aggregated (allItemsOf ps) (lastToken (ofOptStr q.pageToken) ps).orNull
        (!(lastToken (ofOptStr q.pageToken) ps).truthy)) ∧
    (getComments fuel w q).trace =
      pageCalls w q (ofOptStr q.pageToken) ps ++
        [.log ⟨"FETCH_COMMENTS_ALL", .total (allItemsOf ps).length⟩ .ok] ∧
    ps.getLast?.map Page.nextPageToken = some (lastToken (ofOptStr q.pageToken) ps) := by
  have hrun := paginate_run w q ps fuel 0 [] (ofOptStr q.pageToken) hserve hstop hfuel
  refine ⟨?_, ?_, lastToken_getLast ps _ (stopsAtLast_ne_nil 0 ps hstop)⟩
  · simp only [getComments, hvid, hall, Bool.not_true, Bool.false_eq_true, if_false, if_true,
      hrun, List.nil_append, finishAll, logAction, hlog]
  · simp only [getComments, hvid, hall, Bool.not_true, Bool.false_eq_true, if_false, if_true,
      hrun, List.nil_append, finishAll, logAction, hlog]

/-- Witness for C1: pages of 50, 50 and 30 threads with tokens `T1`, `T2` and
none give 130 items, `fetchedAll = true` and `nextPageToken = null`. -/
theorem getComments_all_aggregates_witness :
    (getComments 3 threePageWorld allQuery).outcome =
      .sent 200 (.aggregated (List.replicate 130 "thread") .null true) ∧
    upstreamCalls (getComments 3 threePageWorld allQuery).trace =
      [.listThreads (some "video-1") (.int 50) none none (some "Bearer ya29.sample"),
       .listThreads (some "video-1") (.int 50) none (some (.str "T1")) (some "Bearer ya29.sample"),
       .listThreads (some "video-1") (.int 50) none (some (.str "T2"))
         (some "Bearer ya29.sample")] :=
  have h := getComments_all_aggregates threePageWorld allQuery
    [pageOf 50 (.str "T1"), pageOf 50 (.str "T2"), pageOf 30 .undefined] 3
    (by decide) rfl (by decide) (by decide) (by decide) rfl
  ⟨h.1, by rw [h.2.1]; decide⟩

theorem finishAll_tokens (w : World) (items : List Item) (tok : JsVal) :
    observedTokens (finishAll w items tok).trace = [] := by
  simp only [finishAll, logAction]
  split <;> rfl

theorem finishAll_aggregated (w : World) (acc : List Item) (tok : JsVal) (items : List Item)
    (t : JsVal) (fa : Bool)
    (h : (finishAll w acc tok).outcome = .sent 200 (.aggregated items t fa)) :
    items = acc ∧ t = tok.orNull ∧ fa = !tok.truthy := by
  simp only [finishAll, logAction] at h
  split at h
  · simp [respondCaught] at h
  · simp only [Outcome.sent.injEq, Body.aggregated.injEq, true_and] at h
    exact ⟨h.1.symm, h.2.1.symm, h.2.2.symm⟩

/-- The invariant of the loop: entered below the safety bound, it can only
finish with fewer than the bound plus one page of items, and with a truthy
token only at or above the bound. -/
theorem paginate_bound (w : World) (q : CommentsQuery) (P : Nat)
    (hP : ∀ n c its tok rest, w.upstream n c = .ok (.object its tok rest) →
      (pageItems its).length ≤ P) (fuel : Nat) :
    ∀ (n : Nat) (acc : List Item) (tok0 : JsVal) (items : List Item) (t : JsVal) (fa : Bool),
    acc.length < SAFETY_LIMIT →
    (paginate w q fuel n acc tok0).outcome = .sent 200 (.aggregated items t fa) →
    ∃ last, (observedTokens (paginate w q fuel n acc tok0).trace).getLast? = some last ∧
      t = last.orNull ∧ fa = !last.truthy ∧ items.length ≤ SAFETY_LIMIT + P ∧
      (last.truthy = true → SAFETY_LIMIT ≤ items.length) := by
  induction fuel with
  | zero => intro n acc tok0 items t fa _ h; simp [paginate] at h
  | succ fuel ih =>
    intro n acc tok0 items t fa hacc h
    unfold paginate at h ⊢
    cases hu : w.upstream n (fetchPageCall w q tok0) with
    | error err => simp [hu, respondCaught] at h
    | ok d =>
      cases d with
      | nullish => simp [hu, respondCaught] at h
      | object its tok rest =>
        have hlen : (acc ++ pageItems its).length = acc.length + (pageItems its).length :=
          List.length_append _ _
        have hp := hP n _ its tok rest hu
        simp only [hu, Run.after] at h ⊢
        by_cases ht : tok.truthy = true
        · by_cases hlim : (acc ++ pageItems its).length ≥ SAFETY_LIMIT
          · simp only [ht, Bool.not_true, Bool.false_eq_true, if_false, hlim, if_true] at h ⊢
            obtain ⟨hi, htk, hfa⟩ := finishAll_aggregated w _ _ _ _ _ h
            refine ⟨tok, by simp [observedTokens, finishAll_tokens], htk, hfa, ?_, ?_⟩
            · rw [hi, hlen]; omega
            · intro _; rw [hi]; exact hlim
          · simp only [ht, Bool.not_true, Bool.false_eq_true, if_false, hlim] at h ⊢
            obtain ⟨last, hl, rest2⟩ := ih (n + 1) _ tok items t fa (by omega) h
            refine ⟨last, ?_, rest2⟩
            simp only [observedTokens]
            rw [List.getLast?_cons, hl]
            rfl
        · simp only [ht, Bool.not_false, if_true] at h ⊢
          obtain ⟨hi, htk, hfa⟩ := finishAll_aggregated w _ _ _ _ _ h
          refine ⟨tok, by simp [observedTokens, finishAll_tokens], htk, hfa, ?_, ?_⟩
          · rw [hi, hlen]; omega
          · intro h2; exact absurd h2 ht

/-- C2: against an upstream whose pages carry at most `P` items each, every
aggregated response of `GET /comments?all=true` holds at most `1000 + P`
items; and when the token it returns is still present (the loop stopped on the
bound), it holds at least 1000 items, `fetchedAll` is false and the token is
the one of the last page received. -/
theorem getComments_all_bounded (fuel : Nat) (w : World) (q : CommentsQuery) (P : Nat)
    (items : List Item) (t : JsVal) (fa : Bool) (hall : q.all = some "true")
    (hP : ∀ n c its tok rest, w.upstream n c = .ok (.object its tok rest) →
      (pageItems its).length ≤ P)
    (hret : (getComments fuel w q).outcome = .sent 200 (.aggregated items t fa)) :
    items.length ≤ 1000 + P ∧
    (t.truthy = true →
      1000 ≤ items.length ∧ fa = false ∧
      (observedTokens (getComments fuel w q).trace).getLast? = some t) := by
  unfold getComments at hret ⊢
  by_cases hvid : truthyStr w.env.VIDEO_ID = true
  · simp only [hvid, hall, Bool.not_true, Bool.false_eq_true, if_false, if_true] at hret ⊢
    obtain ⟨last, hl, htk, hfa, hlen, hge⟩ :=
      paginate_bound w q P hP fuel 0 [] _ items t fa (by decide) hret
    refine ⟨hlen, ?_⟩
    intro htt
    have hlast : last.truthy = true := by
      by_contra hc
      rw [htk, JsVal.orNull, if_neg hc] at htt
      exact absurd htt (by decide)
    have hteq : t = last := by rw [htk, JsVal.orNull, if_pos hlast]
    exact ⟨hge hlast, by rw [hfa, hlast]; rfl, by rw [hl, hteq]⟩
  · simp [hvid] at hret

/-- C3 fails on the code: against an upstream that answers every listing call
with a page without items and the token `T`, the loop of `GET /comments?all=true`
is still running after any number of iterations, and it has made one upstream
call per iteration: no bound caps the number of requests. -/
theorem getComments_all_unbounded_requests (fuel : Nat) :
    (getComments fuel (endlessWorld 0) allQuery).outcome = .running ∧
    (upstreamCalls (getComments fuel (endlessWorld 0) allQuery).trace).length = fuel := by
  have key : ∀ (fuel n : Nat) (tok : JsVal),
      (paginate (endlessWorld 0) allQuery fuel n [] tok).outcome = .running ∧
      (upstreamCalls (paginate (endlessWorld 0) allQuery fuel n [] tok).trace).length = fuel := by
    intro fuel
    induction fuel with
    | zero => intro n tok; exact ⟨rfl, rfl⟩
    | succ fuel ih =>
      intro n tok
      have hstep : paginate (endlessWorld 0) allQuery (fuel + 1) n [] tok =
          Run.after (.call (fetchPageCall (endlessWorld 0) allQuery tok)
            (.ok (pageOf 0 (.str "T")).data))
            (paginate (endlessWorld 0) allQuery fuel (n + 1) [] (.str "T")) := by
        simp [paginate, endlessWorld, pageOf, Page.data, pageItems, JsVal.truthy, SAFETY_LIMIT]
      rw [hstep]
      obtain ⟨h1, h2⟩ := ih (n + 1) (.str "T")
      exact ⟨h1, by simp [Run.after, upstreamCalls, h2]⟩
  exact key fuel 0 .undefined

/-- The loop does end when every page that carries a token also carries at
least one item: started with `acc`, it has finished within `1000 - acc.length`
page fetches (within one when that is zero). -/
theorem paginate_finishes (w : World) (q : CommentsQuery)
    (hitems : ∀ n c its tok rest, w.upstream n c = .ok (.object its tok rest) →
      tok.truthy = true → 1 ≤ (pageItems its).length) (fuel : Nat) :
    ∀ (n : Nat) (acc : List Item) (tok0 : JsVal),
    1 ≤ fuel → SAFETY_LIMIT - acc.length ≤ fuel →
    (paginate w q fuel n acc tok0).outcome ≠ .running := by
  induction fuel with
  | zero => intro n acc tok0 h; omega
  | succ fuel ih =>
    intro n acc tok0 _ hfuel
    unfold paginate
    cases hu : w.upstream n (fetchPageCall w q tok0) with
    | error err => simp [hu, respondCaught]
    | ok d =>
      cases d with
      | nullish => simp [hu, respondCaught]
      | object its tok rest =>
        have hlen : (acc ++ pageItems its).length = acc.length + (pageItems its).length :=
          List.length_append _ _
        have hfin : ∀ items t, (finishAll w items t).outcome ≠ .running := by
          intro items t
          simp only [finishAll, logAction]
          split <;> simp [respondCaught]
        simp only [hu, Run.after]
        by_cases ht : tok.truthy = true
        · have h1 := hitems n _ its tok rest hu ht
          by_cases hlim : (acc ++ pageItems its).length ≥ SAFETY_LIMIT
          · simp only [ht, Bool.not_true, Bool.false_eq_true, if_false, hlim, if_true]
            exact hfin _ _
          · simp only [ht, Bool.not_true, Bool.false_eq_true, if_false, hlim]
            have hS : SAFETY_LIMIT = 1000 := rfl
            have hlim2 : acc.length + (pageItems its).length < SAFETY_LIMIT := by omega
            apply ih
            · omega
            · rw [hlen]; omega
        · simp only [ht, Bool.not_false, if_true]
          exact hfin _ _

theorem endlessWorld_pages (k : Nat) :
    ∀ n c its tok rest, (endlessWorld k).upstream n c = .ok (.object its tok rest) →
      (pageItems its).length ≤ k := by
  intro n c its tok rest h
  simp only [endlessWorld, pageOf, Page.data, Reply.ok.injEq, Data.object.injEq] at h
  rw [← h.1]
  simp [pageItems]

theorem endlessWorld_two_pages (k : Nat) (h1 : k < 1000) (h2 : 1000 ≤ k + k) :
    (getComments 2 (endlessWorld k) allQuery).outcome =
      .sent 200 (.aggregated (List.replicate k "thread" ++ List.replicate k "thread")
        (.str "T") false) := by
  have ht : (JsVal.str "T").truthy = true := by decide
  have hv : truthyStr (endlessWorld k).env.VIDEO_ID = true := rfl
  have hq : allQuery.all = some "true" := rfl
  have hn1 : ¬ k ≥ SAFETY_LIMIT := by unfold SAFETY_LIMIT; omega
  have hn2 : k + k ≥ SAFETY_LIMIT := by unfold SAFETY_LIMIT; omega
  have hu : ∀ n c, (endlessWorld k).upstream n c =
      .ok (.object (some (List.replicate k "thread")) (.str "T") "") := fun _ _ => rfl
  have hl : ∀ e, (endlessWorld k).logCreate e = .ok := fun _ => rfl
  simp only [getComments, hv, hq, Bool.not_true, Bool.false_eq_true, if_false, if_true, paginate,
    hu, Run.after, ht, pageItems, List.nil_append, List.length_replicate, hn1,
    List.length_append, hn2, finishAll, logAction, hl, JsVal.orNull]

/-- Witness for C2: pages of 600 threads that always carry a token; the loop
stops on the bound after the second page with 1200 items. -/
theorem getComments_all_bounded_witness :
    (getComments 2 (endlessWorld 600) allQuery).outcome =
      .sent 200 (.aggregated (List.replicate 600 "thread" ++ List.replicate 600 "thread")
        (.str "T") false) ∧
    (List.replicate 600 "thread" ++ List.replicate 600 "thread").length ≤ 1000 + 600 ∧
    1000 ≤ (List.replicate 600 "thread" ++ List.replicate 600 "thread").length ∧
    (observedTokens (getComments 2 (endlessWorld 600) allQuery).trace).getLast? =
      some (.str "T") :=
  have hret := endlessWorld_two_pages 600 (by decide) (by decide)
  have h := getComments_all_bounded 2 (endlessWorld 600) allQuery 600
    (List.replicate 600 "thread" ++ List.replicate 600 "thread") (.str "T") false rfl
    (endlessWorld_pages 600) hret
  ⟨hret, h.1, (h.2 rfl).1, (h.2 rfl).2.2⟩

/-! ## Credential -/

/-- `POST /comment` and `DELETE /comment/:id` answer 401 without any effect
when the credential is absent or empty. -/
theorem post_delete_require_credential (w : World) (body : PostBody) (id : String)
    (h : truthyStr w.env.YOUTUBE_ACCESS_TOKEN = false) :
    postComment w body = ⟨.sent 401 (.error "Missing YOUTUBE_ACCESS_TOKEN in env"), []⟩ ∧
    deleteComment w id = ⟨.sent 401 (.error "Missing YOUTUBE_ACCESS_TOKEN in env"), []⟩ := by
  simp [postComment, deleteComment, h]

/-- C8 fails on the code for `PUT /video`: without a credential the route still
issues the upstream update, with the header `Bearer undefined`, and when the
upstream accepts it the audit entry is written and the response is 200. -/
theorem putVideo_without_credential :
    truthyStr noCredentialWorld.env.YOUTUBE_ACCESS_TOKEN = false ∧
    putVideo noCredentialWorld ⟨.str "New title", .str "New description"⟩ =
      ⟨.sent 200 (.data (.object none .undefined "")),
       [.call (.updateVideo (some "video-1") (.str "New title") (.str "New description")
          "Bearer undefined") emptyReply,
        .log ⟨"UPDATE_VIDEO_DETAILS", .video (.str "New title") (.str "New description")⟩
          .ok]⟩ := by
  decide

/-! ## Failure of the audit store -/

/-- C7 as stated fails: with a working upstream and a failing audit store,
`POST /comment` performs the upstream call and then answers 500 with the
message of the store failure instead of its success response. -/
theorem audit_failure_counterexample :
    postComment brokenStoreWorld ⟨.str "hello", .undefined⟩ =
      ⟨.sent 500 (.errorData (.message "audit store unavailable")),
       [.call (.createThread (some "video-1") "hello" "Bearer ya29.sample") emptyReply,
        .log ⟨"POST_COMMENT", .post (.str "hello") .undefined⟩
          (.error "audit store unavailable")]⟩ ∧
    (postComment brokenStoreWorld ⟨.str "hello", .undefined⟩).outcome ≠
      .sent 200 (.data (.object none .undefined "")) := by
  decide

/-- C7, amended: when the upstream call of an operation succeeded and the audit
store then rejects the entry with the message `m`, the operation answers 500
with that message instead of its success response, and the rejected audit
write is the last effect of the run: no further upstream call is made.  This
holds for posting a comment, deleting a comment, deleting a thread through the
fallback, updating the video, and listing comments (one page or aggregated). -/
theorem audit_failure_surfaces (w : World) (m : String)
    (hstore : ∀ e, w.logCreate e = .error m) :
    (∀ s parentId d, truthyStr w.env.YOUTUBE_ACCESS_TOKEN = true → s ≠ "" → jsTrim s ≠ "" →
      w.upstream 0 (postCall w s parentId) = .ok d →
      postComment w ⟨.str s, parentId⟩ =
        ⟨.sent 500 (.errorData (.message m)),
         [.call (postCall w s parentId) (.ok d),
          .log ⟨"POST_COMMENT", .post (.str s) parentId⟩ (.error m)]⟩) ∧
    (∀ id d, truthyStr w.env.YOUTUBE_ACCESS_TOKEN = true → id ≠ "" →
      w.upstream 0 (commentDelete w id) = .ok d →
      deleteComment w id =
        ⟨.sent 500 (.errorData (.message m)),
         [.call (commentDelete w id) (.ok d), .log ⟨"DELETE_COMMENT", .id id⟩ (.error m)]⟩) ∧
    (∀ id err resp d, truthyStr w.env.YOUTUBE_ACCESS_TOKEN = true → id ≠ "" →
      w.upstream 0 (commentDelete w id) = .error err → err.response = some resp →
      resp.status = 400 → w.upstream 1 (threadDelete w id) = .ok d →
      deleteComment w id =
        ⟨.sent 500 (.errorFallback (.str m)),
         [.call (commentDelete w id) (.error err), .call (threadDelete w id) (.ok d),
          .log ⟨"DELETE_COMMENTTHREAD", .id id⟩ (.error m)]⟩) ∧
    (∀ body d, w.upstream 0 (videoUpdate w body) = .ok d →
      putVideo w body =
        ⟨.sent 500 (.text m),
         [.call (videoUpdate w body) (.ok d),
          .log ⟨"UPDATE_VIDEO_DETAILS", .video body.title body.description⟩ (.error m)]⟩) ∧
    (∀ q its tok rest fuel, truthyStr w.env.VIDEO_ID = true → q.all ≠ some "true" →
      w.upstream 0 (fetchPageCall w q (ofOptStr q.pageToken)) = .ok (.object its tok rest) →
      getComments fuel w q =
        ⟨.sent 500 (.errorData (.message m)),
         [.call (fetchPageCall w q (ofOptStr q.pageToken)) (.ok (.object its tok rest)),
          .log ⟨"FETCH_COMMENTS_PAGE", .page q.pageToken (its.map List.length)⟩
            (.error m)]⟩) ∧
    (∀ q ps fuel, truthyStr w.env.VIDEO_ID = true → q.all = some "true" →
      serves w q 0 (ofOptStr q.pageToken) ps = true → stopsAtLast 0 ps = true →
      ps.length ≤ fuel →
      getComments fuel w q =
        ⟨.sent 500 (.errorData (.message m)),
         pageCalls w q (ofOptStr q.pageToken) ps ++
           [.log ⟨"FETCH_COMMENTS_ALL", .total (allItemsOf ps).length⟩ (.error m)]⟩) := by
  refine ⟨?_, ?_, ?_, ?_, ?_, ?_⟩
  · intro s parentId d htok hs htrim hup
    simp [postComment, htok, hs, htrim, postSend, hup, logAction, hstore, respondCaught,
      storeError, catchStatus, catchData]
  · intro id d htok hid hup
    simp [deleteComment, htok, hid, hup, logAction, hstore, Run.after, deleteCaught,
      storeError, catchStatus, catchData]
  · intro id err resp d htok hid hup hr hs hup2
    have h400 : catchStatus err = 400 := (catchStatus_eq_400_iff err).2 ⟨resp, hr, hs⟩
    have hfs : fallbackStatus (storeError m) = 500 := rfl
    have hfd : fallbackData (storeError m) = .str m := rfl
    simp [deleteComment, htok, hid, hup, Run.after, deleteCaught, h400, deleteFallback, hup2,
      logAction, hstore, hfs, hfd]
  · intro body d hup
    simp [putVideo, hup, logAction, hstore]
  · intro q its tok rest fuel hvid hall hup
    simp [getComments, hvid, hall, fetchSingle, hup, logAction, hstore, respondCaught,
      storeError, catchStatus, catchData]
  · intro q ps fuel hvid hall hserve hstop hfuel
    have hrun := paginate_run w q ps fuel 0 [] (ofOptStr q.pageToken) hserve hstop hfuel
    simp [getComments, hvid, hall, hrun, finishAll, logAction, hstore, respondCaught,
      storeError, catchStatus, catchData]

/-- Witness for C7: the audit store is down while the upstream accepts the
update of the video. -/
theorem audit_failure_surfaces_witness :
    (∀ e, brokenStoreWorld.logCreate e = .error "audit store unavailable") ∧
    putVideo brokenStoreWorld ⟨.str "title", .str "text"⟩ =
      ⟨.sent 500 (.text "audit store unavailable"),
       [.call (.updateVideo (some "video-1") (.str "title") (.str "text") "Bearer ya29.sample")
          emptyReply,
        .log ⟨"UPDATE_VIDEO_DETAILS", .video (.str "title") (.str "text")⟩
          (.error "audit store unavailable")]⟩ :=
  ⟨fun _ => rfl,
    (audit_failure_surfaces brokenStoreWorld "audit store unavailable" (fun _ => rfl)).2.2.2.1
      ⟨.str "title", .str "text"⟩ (.object none .undefined "") rfl⟩

/-! ## Audit trail of the mutating operations -/

/-- The shapes of a run of `POST /comment`. -/
theorem postComment_shape (w : World) (body : PostBody) :
    (postComment w body).trace = [] ∨
    (∃ c err, (postComment w body).trace = [.call c (.error err)]) ∨
    (∃ c d, (postComment w body).trace =
      [.call c (.ok d), .log ⟨"POST_COMMENT", .post body.text body.parentId⟩
        (w.logCreate ⟨"POST_COMMENT", .post body.text body.parentId⟩)]) := by
  obtain ⟨text, parentId⟩ := body
  by_cases htok : truthyStr w.env.YOUTUBE_ACCESS_TOKEN = true
  swap
  · left
    simp [postComment, htok]
  cases text with
  | str s =>
    by_cases hb : s = "" ∨ jsTrim s = ""
    · left
      simp [postComment, htok, hb]
    · cases hu : w.upstream 0 (postCall w s parentId) with
      | error err =>
        right; left
        exact ⟨postCall w s parentId, err, by simp [postComment, htok, hb, postSend, hu]⟩
      | ok d =>
        right; right
        refine ⟨postCall w s parentId, d, ?_⟩
        cases hl : w.logCreate ⟨"POST_COMMENT", .post (.str s) parentId⟩ <;>
          simp [postComment, htok, hb, postSend, hu, logAction, hl]
  | undefined => left; simp [postComment, htok, JsVal.truthy]
  | null => left; simp [postComment, htok, JsVal.truthy]
  | bool b => left; cases b <;> simp [postComment, htok, JsVal.truthy]
  | num n => left; by_cases hn : n = 0 <;> simp [postComment, htok, JsVal.truthy, hn]
  | obj r => left; simp [postComment, htok, JsVal.truthy]

/-- The shapes of a run of `DELETE /comment/:id`. -/
theorem deleteComment_shape (w : World) (id : String) :
    (deleteComment w id).trace = [] ∨
    (∃ err, (deleteComment w id).trace = [.call (commentDelete w id) (.error err)]) ∨
    (∃ err ferr, (deleteComment w id).trace =
      [.call (commentDelete w id) (.error err), .call (threadDelete w id) (.error ferr)]) ∨
    (∃ d, (deleteComment w id).trace =
      [.call (commentDelete w id) (.ok d),
       .log ⟨"DELETE_COMMENT", .id id⟩ (w.logCreate ⟨"DELETE_COMMENT", .id id⟩)]) ∨
    (∃ err d, (deleteComment w id).trace =
      [.call (commentDelete w id) (.error err), .call (threadDelete w id) (.ok d),
       .log ⟨"DELETE_COMMENTTHREAD", .id id⟩
         (w.logCreate ⟨"DELETE_COMMENTTHREAD", .id id⟩)]) := by
  by_cases htok : truthyStr w.env.YOUTUBE_ACCESS_TOKEN = true
  swap
  · left
    simp [deleteComment, htok]
  by_cases hid : id = ""
  · left
    simp [deleteComment, htok, hid]
  cases hu : w.upstream 0 (commentDelete w id) with
  | ok d =>
    right; right; right; left
    refine ⟨d, ?_⟩
    cases hl : w.logCreate ⟨"DELETE_COMMENT", .id id⟩ <;>
      simp [deleteComment, htok, hid, hu, logAction, hl, Run.after, deleteCaught, storeError,
        catchStatus]
  | error err =>
    by_cases h400 : catchStatus err = 400
    · cases hf : w.upstream 1 (threadDelete w id) with
      | error ferr =>
        right; right; left
        exact ⟨err, ferr, by
          simp [deleteComment, htok, hid, hu, Run.after, deleteCaught, h400, deleteFallback, hf]⟩
      | ok d =>
        right; right; right; right
        refine ⟨err, d, ?_⟩
        cases hl : w.logCreate ⟨"DELETE_COMMENTTHREAD", .id id⟩ <;>
          simp [deleteComment, htok, hid, hu, Run.after, deleteCaught, h400, deleteFallback, hf,
            logAction, hl]
    · right; left
      refine ⟨err, ?_⟩
      by_cases h1 : catchStatus err = 401 <;> by_cases h3 : catchStatus err = 403 <;>
        simp [deleteComment, htok, hid, hu, Run.after, deleteCaught, h400, h1, h3]

/-- The shapes of a run of `PUT /video`. -/
theorem putVideo_shape (w : World) (body : VideoBody) :
    (∃ c err, (putVideo w body).trace = [.call c (.error err)]) ∨
    (∃ c d, (putVideo w body).trace =
      [.call c (.ok d), .log ⟨"UPDATE_VIDEO_DETAILS", .video body.title body.description⟩
        (w.logCreate ⟨"UPDATE_VIDEO_DETAILS", .video body.title body.description⟩)]) := by
  cases hu : w.upstream 0 (videoUpdate w body) with
  | error err => exact Or.inl ⟨videoUpdate w body, err, by simp [putVideo, hu]⟩
  | ok d =>
    refine Or.inr ⟨videoUpdate w body, d, ?_⟩
    cases hl : w.logCreate ⟨"UPDATE_VIDEO_DETAILS", .video body.title body.description⟩ <;>
      simp [putVideo, hu, logAction, hl]

/-- C9: the audit trail of `POST /comment`, `DELETE /comment/:id` and
`PUT /video`, in every world.  When an upstream mutation of the run succeeded,
the run ends with that successful call followed directly by one audit write,
the only one of the run, whose action names the path that succeeded
(`POST_COMMENT`, `DELETE_COMMENT`, `DELETE_COMMENTTHREAD` after the failed
comment attempt, `UPDATE_VIDEO_DETAILS`) and whose metadata are the inputs of
the call; the store holds exactly that entry when it accepts the write.  When
no upstream call of the run succeeded (the request was rejected, or every
call failed), the run makes no audit write. -/
theorem mutations_audited (w : World) :
    (∀ body : PostBody,
      (∀ c d, Event.call c (.ok d) ∈ (postComment w body).trace →
        (postComment w body).trace =
          [.call c (.ok d), .log ⟨"POST_COMMENT", .post body.text body.parentId⟩
            (w.logCreate ⟨"POST_COMMENT", .post body.text body.parentId⟩)] ∧
        auditWrites (postComment w body).trace =
          [⟨"POST_COMMENT", .post body.text body.parentId⟩] ∧
        (w.logCreate ⟨"POST_COMMENT", .post body.text body.parentId⟩ = .ok →
          auditStored (postComment w body).trace =
            [⟨"POST_COMMENT", .post body.text body.parentId⟩])) ∧
      ((∀ c d, Event.call c (.ok d) ∉ (postComment w body).trace) →
        auditWrites (postComment w body).trace = [])) ∧
    (∀ id : String,
      (∀ c d, Event.call c (.ok d) ∈ (deleteComment w id).trace →
        (c = commentDelete w id ∧
          (deleteComment w id).trace =
            [.call c (.ok d), .log ⟨"DELETE_COMMENT", .id id⟩
              (w.logCreate ⟨"DELETE_COMMENT", .id id⟩)] ∧
          auditWrites (deleteComment w id).trace = [⟨"DELETE_COMMENT", .id id⟩] ∧
          (w.logCreate ⟨"DELETE_COMMENT", .id id⟩ = .ok →
            auditStored (deleteComment w id).trace = [⟨"DELETE_COMMENT", .id id⟩])) ∨
        (c = threadDelete w id ∧
          (∃ err, (deleteComment w id).trace =
            [.call (commentDelete w id) (.error err), .call c (.ok d),
             .log ⟨"DELETE_COMMENTTHREAD", .id id⟩
              (w.logCreate ⟨"DELETE_COMMENTTHREAD", .id id⟩)]) ∧
          auditWrites (deleteComment w id).trace = [⟨"DELETE_COMMENTTHREAD", .id id⟩] ∧
          (w.logCreate ⟨"DELETE_COMMENTTHREAD", .id id⟩ = .ok →
            auditStored (deleteComment w id).trace = [⟨"DELETE_COMMENTTHREAD", .id id⟩]))) ∧
      ((∀ c d, Event.call c (.ok d) ∉ (deleteComment w id).trace) →
        auditWrites (deleteComment w id).trace = [])) ∧
    (∀ body : VideoBody,
      (∀ c d, Event.call c (.ok d) ∈ (putVideo w body).trace →
        (putVideo w body).trace =
          [.call c (.ok d), .log ⟨"UPDATE_VIDEO_DETAILS", .video body.title body.description⟩
            (w.logCreate ⟨"UPDATE_VIDEO_DETAILS", .video body.title body.description⟩)] ∧
        auditWrites (putVideo w body).trace =
          [⟨"UPDATE_VIDEO_DETAILS", .video body.title body.description⟩] ∧
        (w.logCreate ⟨"UPDATE_VIDEO_DETAILS", .video body.title body.description⟩ = .ok →
          auditStored (putVideo w body).trace =
            [⟨"UPDATE_VIDEO_DETAILS", .video body.title body.description⟩])) ∧
      ((∀ c d, Event.call c (.ok d) ∉ (putVideo w body).trace) →
        auditWrites (putVideo w body).trace = [])) := by
  refine ⟨?_, ?_, ?_⟩
  · intro body
    rcases postComment_shape w body with h | ⟨c2, err, h⟩ | ⟨c2, d2, h⟩
    · rw [h]
      exact ⟨fun c d hm => by simp at hm, fun _ => rfl⟩
    · rw [h]
      exact ⟨fun c d hm => by simp at hm, fun _ => rfl⟩
    · rw [h]
      constructor
      · intro c d hm
        simp only [List.mem_cons, Event.call.injEq, Reply.ok.injEq, List.mem_singleton,
          reduceCtorEq, or_false, List.not_mem_nil] at hm
        obtain ⟨rfl, rfl⟩ := hm
        refine ⟨rfl, rfl, ?_⟩
        intro hl
        rw [hl]
        rfl
      · intro hno
        exact absurd (List.mem_cons_self _ _) (hno c2 d2)
  · intro id
    rcases deleteComment_shape w id with h | ⟨err, h⟩ | ⟨err, ferr, h⟩ | ⟨d2, h⟩ | ⟨err, d2, h⟩
    · rw [h]
      exact ⟨fun c d hm => by simp at hm, fun _ => rfl⟩
    · rw [h]
      exact ⟨fun c d hm => by simp at hm, fun _ => rfl⟩
    · rw [h]
      exact ⟨fun c d hm => by simp at hm, fun _ => rfl⟩
    · rw [h]
      constructor
      · intro c d hm
        simp only [List.mem_cons, Event.call.injEq, Reply.ok.injEq, List.mem_singleton,
          reduceCtorEq, or_false, List.not_mem_nil] at hm
        obtain ⟨rfl, rfl⟩ := hm
        left
        refine ⟨rfl, rfl, rfl, ?_⟩
        intro hl
        rw [hl]
        rfl
      · intro hno
        exact absurd (List.mem_cons_self _ _) (hno _ d2)
    · rw [h]
      constructor
      · intro c d hm
        simp only [List.mem_cons, Event.call.injEq, Reply.ok.injEq, List.mem_singleton,
          reduceCtorEq, or_false, false_or, and_false, List.not_mem_nil] at hm
        obtain ⟨rfl, rfl⟩ := hm
        right
        refine ⟨rfl, ⟨err, rfl⟩, rfl, ?_⟩
        intro hl
        rw [hl]
        rfl
      · intro hno
        exact absurd (List.mem_cons_of_mem _ (List.mem_cons_self _ _)) (hno _ d2)
  · intro body
    rcases putVideo_shape w body with ⟨c2, err, h⟩ | ⟨c2, d2, h⟩
    · rw [h]
      exact ⟨fun c d hm => by simp at hm, fun _ => rfl⟩
    · rw [h]
      constructor
      · intro c d hm
        simp only [List.mem_cons, Event.call.injEq, Reply.ok.injEq, List.mem_singleton,
          reduceCtorEq, or_false, List.not_mem_nil] at hm
        obtain ⟨rfl, rfl⟩ := hm
        refine ⟨rfl, rfl, ?_⟩
        intro hl
        rw [hl]
        rfl
      · intro hno
        exact absurd (List.mem_cons_self _ _) (hno c2 d2)

/-- Witness for C9: a reply posted under the thread `Ugx1` in a world whose
upstream and audit store both work. -/
theorem mutations_audited_witness :
    Event.call (.createComment (.str "Ugx1") "nice video" "Bearer ya29.sample") emptyReply ∈
      (postComment okWorld ⟨.str "nice video", .str "Ugx1"⟩).trace ∧
    (postComment okWorld ⟨.str "nice video", .str "Ugx1"⟩).trace =
      [.call (.createComment (.str "Ugx1") "nice video" "Bearer ya29.sample") emptyReply,
       .log ⟨"POST_COMMENT", .post (.str "nice video") (.str "Ugx1")⟩ .ok] ∧
    auditStored (postComment okWorld ⟨.str "nice video", .str "Ugx1"⟩).trace =
      [⟨"POST_COMMENT", .post (.str "nice video") (.str "Ugx1")⟩] :=
  have hm : Event.call (.createComment (.str "Ugx1") "nice video" "Bearer ya29.sample")
      emptyReply ∈ (postComment okWorld ⟨.str "nice video", .str "Ugx1"⟩).trace := by decide
  have h := ((mutations_audited okWorld).1 ⟨.str "nice video", .str "Ugx1"⟩).1
    (.createComment (.str "Ugx1") "nice video" "Bearer ya29.sample")
    (.object none .undefined "") hm
  ⟨hm, h.1, h.2.2 rfl⟩

end YoutubeDashboard
